import Mathlib

/-!
Verification of the MCP client core of `agent_client.py` (McpHub, the
AI-service dispatchers, and the numeric-safety transforms), via a shallow
embedding of the relevant Python functions as Lean definitions.

External effects (subprocess transports, HTTP requests, asyncio sleeps)
are modelled by outcome oracles passed as explicit parameters; Python
exceptions are modelled with `Except String`; the mutable hub object is
modelled by explicit state passing.
-/

/-! ## JSON-like value trees and the big-integer safety transform

`OpenAIService._format_tool_result` (lines 942-950) and
`BaseAIService._call_tool` (lines 788-798) both define the same recursive
transform over value trees: dictionaries and lists are rebuilt with the
transform applied to every member, and any `int`/`float` scalar whose
absolute value exceeds 9007199254740991 (the JavaScript maximum safe
integer, 2^53 - 1) is replaced by `str(obj)`.  The embedding covers
integer scalars (Python `float` scalars are outside the model); `str` of
a Python integer is its decimal representation, matching `toString` on
`Int`.  The dict/list comprehensions of the source are unfolded into the
mutually recursive list walks below. -/

inductive JVal where
  | jint (n : Int)
  | jstr (s : String)
  | jbool (b : Bool)
  | jnull
  | jlist (xs : List JVal)
  | jdict (fields : List (String × JVal))

/-- The JavaScript maximum safe integer, 2^53 - 1, as written in the source. -/
def maxSafeInteger : Nat := 9007199254740991

mutual

/-- Embedding of `convert_bigint` from `_format_tool_result`
(identical to `convert_args_bigint` in `_call_tool`): dicts and lists are
rebuilt recursively; an integer scalar with `abs(obj) > 9007199254740991`
becomes its decimal string; everything else passes through unchanged. -/
def convert_bigint : JVal → JVal
  | .jdict fields => .jdict (convertFields fields)
  | .jlist xs => .jlist (convertList xs)
  | .jint n => if maxSafeInteger < n.natAbs then .jstr (toString n) else .jint n
  | .jstr s => .jstr s
  | .jbool b => .jbool b
  | .jnull => .jnull

/-- The list comprehension `[convert_bigint(item) for item in obj]`. -/
def convertList : List JVal → List JVal
  | [] => []
  | x :: xs => convert_bigint x :: convertList xs

/-- The dict comprehension `{k: convert_bigint(v) for k, v in obj.items()}`. -/
def convertFields : List (String × JVal) → List (String × JVal)
  | [] => []
  | (k, v) :: fs => (k, convert_bigint v) :: convertFields fs

end

/-! ## The McpHub connection registry (`McpHub`, lines 284-637)

`self.connections` is a Python dict from server name to a connection dict
`{transport, session, client, config, tools, status[, error]}`; it is
modelled as an association list with dict-assignment semantics
(`connsSet` replaces the first binding in place or appends).  The
`AsyncExitStack` is modelled as the ordered list of handles entered on
it; the two contexts entered per stdio connect (`stdio_client` and
`ClientSession`) are modelled as a single handle.  Events record the
observable actions a run performs. -/

structure Connection where
  transport : String
  handle : Option Nat
  status : String
  error : Option String
  tools : Option (List String)
deriving DecidableEq

structure HubState where
  connections : List (String × Connection)
  exitStack : List Nat
deriving DecidableEq

inductive HubEvent where
  | removedExisting (name : String)
  | enteredContext (handle : Nat)
  | stored (name : String) (handle : Option Nat)
  | fetchedTools (server : String)
  | transportToolCall (server tool : String)
  | shutdownRequested (server : String)
  | closeRequested (handle : Nat)
  | sleptRetry
deriving DecidableEq

/-- Python `self.connections.get(name)`: first binding for the key, if any. -/
def connsLookup : List (String × Connection) → String → Option Connection
  | [], _ => none
  | (k, c) :: rest, n => if k = n then some c else connsLookup rest n

/-- Python `del self.connections[name]`: drop the binding for the key. -/
def removeConn : List (String × Connection) → String →
    List (String × Connection)
  | [], _ => []
  | (k, c) :: rest, n =>
    if k = n then removeConn rest n else (k, c) :: removeConn rest n

/-- Python `self.connections[name] = value`: replace the first binding in place,
or append a new one. -/
def connsSet : List (String × Connection) → String → Connection →
    List (String × Connection)
  | [], n, v => [(n, v)]
  | (k, c) :: rest, n, v =>
    if k = n then (n, v) :: rest else (k, c) :: connsSet rest n v

/-- Number of registry bindings for a given server name. -/
def countKey : List (String × Connection) → String → Nat
  | [], _ => 0
  | (k, _) :: rest, n =>
    if k = n then countKey rest n + 1 else countKey rest n

/-- Embedding of `McpHub.load_tools` (lines 452-484).  The transport-level
retrieval (stdio `session.list_tools()`, or the sse `GET .../tools/list`)
is the oracle `fetch`: `.ok tools` is a successful retrieval, `.error` is
a raised exception or a non-200 status.  A missing connection returns `[]`
without touching any transport; a successful fetch caches the list on the
connection; a failed fetch returns `[]` and leaves the cache unchanged. -/
def load_tools (fetch : Except String (List String)) (st : HubState)
    (server_name : String) : List String × HubState × List HubEvent :=
  match connsLookup st.connections server_name with
  | none => ([], st, [])
  | some c =>
    match fetch with
    | .ok tools =>
      (tools,
       { st with connections := (connsSet st.connections server_name
           ({ c with tools := some tools })) },
       [.fetchedTools server_name])
    | .error _ => ([], st, [.fetchedTools server_name])

/-- Outcome of one stdio connection attempt: the transport and session
were established and initialized (with `fetch` the subsequent tool-list
load outcome), or `asyncio.wait_for` timed out, or some other exception
was raised. -/
inductive StdioOutcome where
  | established (fetch : Except String (List String))
  | timeout
  | exc (msg : String)

/-- Outcome of one sse connection attempt: the liveness `GET` returned an
HTTP status (200 establishes the session), or timed out, or raised. -/
inductive SseOutcome where
  | status (code : Nat) (fetch : Except String (List String))
  | timeout
  | exc (msg : String)

/-- Environment oracle for `connect_to_server`: the outcome of the k-th
connection attempt (1-based), per transport branch. -/
structure ConnectEnv where
  stdio : Nat → StdioOutcome
  sse : Nat → SseOutcome

/-- The parts of the server config the connect control flow inspects. -/
structure ServerConfig where
  transportType : String
deriving DecidableEq

/-- Result of a `connect_to_server` run: the returned boolean (Python
returns `None`, which is falsy, if the loop is somehow exited), the
number of attempts performed, the final hub state and the event trace. -/
structure ConnectResult where
  success : Bool
  attempts : Nat
  state : HubState
  trace : List HubEvent
deriving DecidableEq

/-- The `if name in self.connections: status=disconnected; error=msg`
blocks of the exception handlers (lines 433-435 and 443-445). -/
def recordError (st : HubState) (name msg : String) : HubState :=
  match connsLookup st.connections name with
  | some c =>
    { st with connections := (connsSet st.connections name
        ({ c with status := "disconnected", error := some msg })) }
  | none => st

/-- One iteration of the `while attempt <= retries` loop of
`McpHub.connect_to_server` (lines 313-450), with `fuel` bounding the
recursion (a run never needs more than `retries + 1` iterations).  Each
iteration increments `attempt`, removes any pre-existing binding for the
name, and dispatches on the transport type; on success the connection is
stored with status "connected" and `load_tools` is attempted (its
timeout is swallowed); on failure the handlers record the error only if
a binding for the name still exists, then either give up
(`attempt > retries`) or sleep and retry.  An unsupported transport type
returns false immediately. -/
def connectGo (env : ConnectEnv) (name : String) (cfg : ServerConfig)
    (retries : Nat) :
    Nat → HubState → Nat → List HubEvent → ConnectResult
  | 0, st, attempt, trace => ⟨false, attempt, st, trace⟩
  | fuel + 1, st, attempt, trace =>
    if attempt ≤ retries then
      let a := attempt + 1
      let tr1 := if (connsLookup st.connections name).isSome
                 then trace ++ [.removedExisting name] else trace
      let st1 : HubState := { st with connections := removeConn st.connections name }
      if cfg.transportType = "stdio" then
        match env.stdio a with
        | .established fetch =>
          let handle := st1.exitStack.length
          let st2 : HubState := { st1 with exitStack := st1.exitStack ++ [handle] }
          let st3 : HubState :=
            { st2 with connections := (connsSet st2.connections name
                ⟨"stdio", some handle, "connected", none, none⟩) }
          let tr2 := tr1 ++ [.enteredContext handle, .stored name (some handle)]
          let r := load_tools fetch st3 name
          ⟨true, a, r.2.1, tr2 ++ r.2.2⟩
        | .timeout =>
          if retries < a then ⟨false, a, recordError st1 name "连接超时", tr1⟩
          else connectGo env name cfg retries fuel st1 a (tr1 ++ [.sleptRetry])
        | .exc msg =>
          let st2 := recordError st1 name msg
          if retries < a then ⟨false, a, st2, tr1⟩
          else connectGo env name cfg retries fuel st2 a (tr1 ++ [.sleptRetry])
      else if cfg.transportType = "sse" then
        match env.sse a with
        | .status code fetch =>
          if code = 200 then
            let st3 : HubState :=
              { st1 with connections := (connsSet st1.connections name
                  ⟨"sse", none, "connected", none, none⟩) }
            let tr2 := tr1 ++ [.stored name none]
            let r := load_tools fetch st3 name
            ⟨true, a, r.2.1, tr2 ++ r.2.2⟩
          else if retries < a then ⟨false, a, st1, tr1⟩
          else connectGo env name cfg retries fuel st1 a (tr1 ++ [.sleptRetry])
        | .timeout =>
          if retries < a then ⟨false, a, recordError st1 name "连接超时", tr1⟩
          else connectGo env name cfg retries fuel st1 a (tr1 ++ [.sleptRetry])
        | .exc msg =>
          let st2 := recordError st1 name msg
          if retries < a then ⟨false, a, st2, tr1⟩
          else connectGo env name cfg retries fuel st2 a (tr1 ++ [.sleptRetry])
      else ⟨false, a, st1, tr1⟩
    else ⟨false, attempt, st, trace⟩

/-- Line 310, `retries = retries or self.connection_retries`: Python
`or` replaces both `None` and the falsy `0` with the default of 2. -/
def effRetries : Option Nat → Nat
  | none => 2
  | some 0 => 2
  | some (k + 1) => k + 1

/-- Line 309, `timeout = timeout or self.connection_timeout`: same
truthiness coercion, default 30.  Timeouts only bound real-time waits,
which the embedding folds into the per-attempt outcomes. -/
def effTimeout : Option Nat → Nat
  | none => 30
  | some 0 => 30
  | some (k + 1) => k + 1

/-- Embedding of `McpHub.connect_to_server` (lines 296-450): resolve the
effective retry bound, then run the attempt loop from `attempt = 0`. -/
def connect_to_server (env : ConnectEnv) (st : HubState) (name : String)
    (cfg : ServerConfig) (timeout retries : Option Nat) : ConnectResult :=
  let _t := effTimeout timeout
  let r := effRetries retries
  connectGo env name cfg r (r + 1) st 0 []

/-- Embedding of `McpHub.call_tool` (lines 486-520).  A missing
connection raises `"未找到服务器连接: <name>"` before any transport
operation.  Otherwise the transport-level call (stdio
`session.call_tool` returning `result.content`, or the sse `POST`) is
the oracle `transportResult`; the `except` handler prints and re-raises,
so the outcome is propagated to the caller unchanged. -/
def call_tool (transportResult : Except String String) (st : HubState)
    (server_name tool_name : String) (_tool_args : JVal) :
    Except String String × List HubEvent :=
  match connsLookup st.connections server_name with
  | none => (.error ("未找到服务器连接: " ++ server_name), [])
  | some _ => (transportResult, [.transportToolCall server_name tool_name])

/-- Oracle for `cleanup`: whether `session.shutdown()` raises for a given
server, and whether `exit_stack.aclose()` raises. -/
structure CleanupOracle where
  shutdownRaises : String → Bool
  acloseRaises : Bool

/-- Python `try: body except Exception: handler`. -/
def pyCatch {α : Type} (body : Except String α)
    (handler : String → Except String α) : Except String α :=
  match body with
  | .ok a => .ok a
  | .error e => handler e

/-- The guarded `session.shutdown()` call of `cleanup` (line 608). -/
def sessionShutdown (o : CleanupOracle) (server_name : String) :
    Except String Unit :=
  if o.shutdownRaises server_name then
    .error ("shutdown failed: " ++ server_name)
  else .ok ()

/-- The guarded `exit_stack.aclose()` call of `cleanup` (line 626). -/
def stackAclose (o : CleanupOracle) : Except String Unit :=
  if o.acloseRaises then .error "aclose failed" else .ok ()

/-- The `for server_name, connection in list(self.connections.items())`
loop of `cleanup` (lines 600-616): each stdio connection gets a
best-effort `shutdown` whose timeout/cancellation/exception is swallowed
by the inner handlers. -/
def cleanupShutdownLoop (o : CleanupOracle) :
    List (String × Connection) → Except String (List HubEvent)
  | [] => .ok []
  | (n, c) :: rest =>
    if c.transport = "stdio" then do
      let _ ← pyCatch (sessionShutdown o n) (fun _ => .ok ())
      let evs ← cleanupShutdownLoop o rest
      .ok (HubEvent.shutdownRequested n :: evs)
    else cleanupShutdownLoop o rest

/-- Embedding of `McpHub.cleanup` (lines 595-637): best-effort shutdowns
with all errors swallowed, `self.connections = {}`, a guarded
`exit_stack.aclose()` (on success the stack's contexts are closed, on a
swallowed failure they are left as they are), an outer
`except Exception` and a `finally` that clears the registry again. -/
def cleanup (o : CleanupOracle) (st : HubState) :
    Except String (HubState × List HubEvent) :=
  let body : Except String (HubState × List HubEvent) := do
    let evs ← cleanupShutdownLoop o st.connections
    let st1 : HubState := { st with connections := [] }
    let closed ← pyCatch
      (do
        let _ ← stackAclose o
        .ok (({ st1 with exitStack := [] } : HubState),
             st1.exitStack.map HubEvent.closeRequested))
      (fun _ => .ok (st1, []))
    .ok (closed.1, evs ++ closed.2)
  match body with
  | .ok (st2, evs) => .ok ({ st2 with connections := [] }, evs)
  | .error _ => .ok ({ st with connections := [] }, [])

/-! ## The dispatchers (`OpenAIService.process_response`, lines 880-929,
and `AnthropicService.process_response`, lines 1163-1204)

A model response is a list of content parts and tool invocations.  The
external effects of one invocation (`session.call_tool` followed, in the
OpenAI variant, by `_format_tool_result`, or by `str()` interpolation in
the Anthropic variant) are an oracle `callOutcome` indexed by the
invocation position: `.ok s` is the formatted result string, `.error e`
is a raised exception's message.  `json.loads` of the arguments and
`_preprocess_tool_args` run before the guarded call and are modelled as
the invocation arriving with already-processed arguments. -/

/-- One entry of `message.tool_calls`: the function name the model asked
to invoke (arguments are consumed by the call oracle). -/
structure ToolCall where
  name : String
deriving DecidableEq

/-- The message of the first choice of an OpenAI completion: optional
text content plus the list of requested tool calls. -/
structure ChatMessage where
  content : Option String
  tool_calls : List ToolCall
deriving DecidableEq

/-- The annotation appended for invocation `i`: the result marker
`"\n[调用工具 <name>，结果: <r>]"` on success, or the inline error marker
`"\n[调用工具 <name> 失败: <e>]"` when the call raised. -/
def openaiAnnot (callOutcome : Nat → Except String String) (i : Nat)
    (tc : ToolCall) : String :=
  match callOutcome i with
  | .ok r => "\n[调用工具 " ++ tc.name ++ "，结果: " ++ r ++ "]"
  | .error e => "\n[调用工具 " ++ tc.name ++ " 失败: " ++ e ++ "]"

/-- The annotations of a run over `tool_calls`, starting at position `i`. -/
def openaiAnnotList (callOutcome : Nat → Except String String) :
    Nat → List ToolCall → List String
  | _, [] => []
  | i, tc :: rest => openaiAnnot callOutcome i tc ::
      openaiAnnotList callOutcome (i + 1) rest

/-- The `for tool_call in message.tool_calls` loop (lines 910-926): each
iteration awaits the call inside `try`, appending the result marker, and
its `except` handler appends the inline error marker instead; the loop
itself runs in the surrounding (uncaught) context. -/
def openaiProcessCalls (callOutcome : Nat → Except String String) :
    Nat → List ToolCall → Except String (List String)
  | _, [] => .ok []
  | i, tc :: rest => do
    let part ← pyCatch
      (do
        let r ← callOutcome i
        .ok ("\n[调用工具 " ++ tc.name ++ "，结果: " ++ r ++ "]"))
      (fun e => .ok ("\n[调用工具 " ++ tc.name ++ " 失败: " ++ e ++ "]"))
    let restParts ← openaiProcessCalls callOutcome (i + 1) rest
    .ok (part :: restParts)

/-- Check `if message.content:` — Python truthiness skips both `None` and the
empty string. -/
def contentParts : Option String → List String
  | some c => if c = "" then [] else [c]
  | none => []

/-- Python `sep.join(parts)`. -/
def pyJoin (sep : String) : List String → String
  | [] => ""
  | [x] => x
  | x :: y :: rest => x ++ sep ++ pyJoin sep (y :: rest)

/-- Embedding of `OpenAIService.process_response` (lines 880-929): bail
out on a missing session; collect the message content (if truthy) and
one annotation per tool call, in emission order; return the parts joined
with newlines, or the fixed placeholder if nothing was produced.
`response = none` models a response without (non-empty) `choices`. -/
def openai_process_response (callOutcome : Nat → Except String String)
    (sessionOk : Bool) (response : Option ChatMessage) :
    Except String String :=
  if !sessionOk then .ok "错误: 无法获取服务器会话"
  else
    match response with
    | none => .ok "处理完成，但没有返回结果"
    | some msg => do
      let callParts ← openaiProcessCalls callOutcome 0 msg.tool_calls
      let parts := contentParts msg.content ++ callParts
      .ok (if parts.isEmpty then "处理完成，但没有返回结果"
           else pyJoin "\n" parts)

/-- One block of an Anthropic response's `content` array.  Blocks whose
`type` is neither "text" nor "tool_use" fall through the if/elif chain
and are skipped. -/
inductive ContentBlock where
  | text (s : String)
  | toolUse (name : String)
  | other
deriving DecidableEq

/-- The annotation the Anthropic loop appends for the tool-use block at
position `i`. -/
def anthropicAnnot (callOutcome : Nat → Except String String) (i : Nat)
    (name : String) : String :=
  match callOutcome i with
  | .ok r => "\n[调用工具 " ++ name ++ "，结果: " ++ r ++ "]"
  | .error e => "\n[调用工具 " ++ name ++ " 失败: " ++ e ++ "]"

/-- The parts a run over `content` collects, starting at position `i`:
text blocks verbatim, one annotation per tool-use block. -/
def anthropicParts (callOutcome : Nat → Except String String) :
    Nat → List ContentBlock → List String
  | _, [] => []
  | i, .text s :: rest => s :: anthropicParts callOutcome (i + 1) rest
  | i, .toolUse n :: rest =>
      anthropicAnnot callOutcome i n :: anthropicParts callOutcome (i + 1) rest
  | i, .other :: rest => anthropicParts callOutcome (i + 1) rest

/-- The `for block in content` loop (lines 1185-1201), with the guarded
call and its `except` handler per tool-use block. -/
def anthropicProcessBlocks (callOutcome : Nat → Except String String) :
    Nat → List ContentBlock → Except String (List String)
  | _, [] => .ok []
  | i, .text s :: rest => do
    let restParts ← anthropicProcessBlocks callOutcome (i + 1) rest
    .ok (s :: restParts)
  | i, .toolUse n :: rest => do
    let part ← pyCatch
      (do
        let r ← callOutcome i
        .ok ("\n[调用工具 " ++ n ++ "，结果: " ++ r ++ "]"))
      (fun e => .ok ("\n[调用工具 " ++ n ++ " 失败: " ++ e ++ "]"))
    let restParts ← anthropicProcessBlocks callOutcome (i + 1) rest
    .ok (part :: restParts)
  | i, .other :: rest => anthropicProcessBlocks callOutcome (i + 1) rest

/-- Embedding of `AnthropicService.process_response` (lines 1163-1204). -/
def anthropic_process_response (callOutcome : Nat → Except String String)
    (sessionOk : Bool) (blocks : List ContentBlock) : Except String String :=
  if !sessionOk then .ok "错误: 无法获取服务器会话"
  else do
    let parts ← anthropicProcessBlocks callOutcome 0 blocks
    .ok (if parts.isEmpty then "处理完成，但没有返回结果"
         else pyJoin "\n" parts)

/-! ## Argument preprocessing (`BaseAIService._preprocess_tool_args`,
lines 722-766)

The frame claim is about Python aliasing: `args.copy()` is a shallow
copy, so the copy's list values alias the caller's lists.  The heap of
list objects is modelled as an explicit store; `PVal.plist r` is a
reference into it.  List elements are scalars, as in the tool schemas
this preprocessing serves.  New lists built by the comprehensions are
allocated at the end of the store, so the caller's lists are never
overwritten. -/

inductive PScalar where
  | sint (n : Int)
  | sstr (s : String)
  | sbool (b : Bool)
  | snone
deriving DecidableEq

inductive PVal where
  | pint (n : Int)
  | pstr (s : String)
  | pbool (b : Bool)
  | pnone
  | plist (r : Nat)
deriving DecidableEq

/-- The heap of Python list objects. -/
abbrev Store : Type := List (List PScalar)

/-- A Python dict with string keys, in insertion order. -/
abbrev PyDict : Type := List (String × PVal)

/-- Python `d.get(k)` and `k in d`: first binding for the key. -/
def dictGet : PyDict → String → Option PVal
  | [], _ => none
  | (k, v) :: rest, n => if k = n then some v else dictGet rest n

/-- Python `d[k] = v`: replace the first binding in place, or append. -/
def dictSet : PyDict → String → PVal → PyDict
  | [], n, v => [(n, v)]
  | (k, w) :: rest, n, v =>
    if k = n then (n, v) :: rest else (k, w) :: dictSet rest n v

/-- Python `str()` of a scalar. -/
def pyStrScalar : PScalar → String
  | .sint n => toString n
  | .sstr s => s
  | .sbool b => if b then "True" else "False"
  | .snone => "None"

/-- Python `repr()` of a scalar, as used by `str()` on a list; the string
quote is written via its code point to keep it out of the source text. -/
def pyReprScalar : PScalar → String
  | .sint n => toString n
  | .sstr s => String.singleton (Char.ofNat 39) ++ s ++ String.singleton (Char.ofNat 39)
  | .sbool b => if b then "True" else "False"
  | .snone => "None"

/-- Python `str()` of a value, dereferencing list objects. -/
def pyStr (store : Store) : PVal → String
  | .pint n => toString n
  | .pstr s => s
  | .pbool b => if b then "True" else "False"
  | .pnone => "None"
  | .plist r =>
      "[" ++ String.intercalate ", " ((store.getD r []).map pyReprScalar) ++ "]"

/-- Python truthiness of a value. -/
def pyTruthy (store : Store) : PVal → Bool
  | .pint n => n != 0
  | .pstr s => s != ""
  | .pbool b => b
  | .pnone => false
  | .plist r => !(store.getD r []).isEmpty

/-- Python iteration `for amt in v`: lists yield their elements, strings
yield their characters, other scalars raise `TypeError`. -/
def pyIter (store : Store) : PVal → Except String (List PScalar)
  | .plist r => .ok (store.getD r [])
  | .pstr s => .ok (s.data.map (fun ch => PScalar.sstr (String.singleton ch)))
  | v => .error ("TypeError: " ++ pyStr store v ++ " is not iterable")

/-- The `for field in numeric_fields` loops (lines 739-741 and 762-764):
`if field in processed_args and processed_args[field] is not None:
processed_args[field] = str(processed_args[field])`. -/
def strNumericFields (store : Store) : List String → PyDict → PyDict
  | [], d => d
  | f :: fs, d =>
    let d1 := match dictGet d f with
      | some v => if v ≠ PVal.pnone then dictSet d f (.pstr (pyStr store v)) else d
      | none => d
    strNumericFields store fs d1

/-- The `for field in boolean_fields` loop (lines 745-749): a string
value is replaced by `value.lower() == "true"`. -/
def coerceBoolFields : List String → PyDict → PyDict
  | [], d => d
  | f :: fs, d =>
    let d1 := match dictGet d f with
      | some (.pstr s) => dictSet d f (.pbool (s.toLower = "true"))
      | _ => d
    coerceBoolFields fs d1

/-- The `if field in args and args[field]: args[field] = [str(amt) for
amt in args[field]]` steps of the batch branch (lines 754-758): the
comprehension allocates a fresh list at the end of the store. -/
def strAmountList (d : PyDict) (store : Store) (f : String) :
    Except String (PyDict × Store) :=
  match dictGet d f with
  | some v =>
    if pyTruthy store v then
      match pyIter store v with
      | .error e => .error e
      | .ok elems =>
        .ok (dictSet d f (.plist store.length),
             store ++ [elems.map (fun e => PScalar.sstr (pyStrScalar e))])
    else .ok (d, store)
  | none => .ok (d, store)

/-- Embedding of `BaseAIService._preprocess_tool_args` (lines 722-766):
a shallow copy of the arguments (`args.copy()`, sharing list references)
is coerced field by field; the original mapping is never written to. -/
def preprocess_tool_args (tool_name : String) (args : PyDict)
    (store : Store) : Except String (PyDict × Store) :=
  let processed := args
  if tool_name = "create-stream" then
    let p1 := strNumericFields store
      ["depositAmount", "cliffAmount", "startTime", "stopTime", "interval",
       "autoWithdrawInterval"] processed
    let p2 := coerceBoolFields ["autoWithdraw", "isFa", "execute"] p1
    .ok (p2, store)
  else if tool_name = "batch-create-streams" then
    match strAmountList processed store "depositAmounts" with
    | .error e => .error e
    | .ok (p1, s1) =>
      match strAmountList p1 s1 "cliffAmounts" with
      | .error e => .error e
      | .ok (p2, s2) =>
        .ok (strNumericFields s2
          ["startTime", "stopTime", "interval", "autoWithdrawInterval"] p2, s2)
  else .ok (processed, store)

/-- A value as the caller observes it: list references dereferenced in a
given store. -/
inductive Obs where
  | oint (n : Int)
  | ostr (s : String)
  | obool (b : Bool)
  | onone
  | olist (xs : List PScalar)
deriving DecidableEq

/-- Observation of a value in a store. -/
def observeVal (store : Store) : PVal → Obs
  | .pint n => .oint n
  | .pstr s => .ostr s
  | .pbool b => .obool b
  | .pnone => .onone
  | .plist r => .olist (store.getD r [])

/-- Observation of a whole argument mapping. -/
def observeDict (store : Store) (d : PyDict) : List (String × Obs) :=
  d.map (fun kv => (kv.1, observeVal store kv.2))

/-- A value's list reference, if any, points into the store. -/
def validRefB (store : Store) : PVal → Bool
  | .plist r => r < store.length
  | _ => true

/-- Every list reference in the mapping points into the store (no
dangling references, as in any real Python heap). -/
def validRefsB (store : Store) (d : PyDict) : Bool :=
  d.all (fun kv => validRefB store kv.2)

theorem convertList_eq_map (xs : List JVal) :
    convertList xs = xs.map convert_bigint := by
  induction xs with
  | nil => rfl
  | cons x xs ih => simp [convertList, ih]

theorem convertFields_eq_map (fs : List (String × JVal)) :
    convertFields fs = fs.map (fun kv => (kv.1, convert_bigint kv.2)) := by
  induction fs with
  | nil => rfl
  | cons kv fs ih => cases kv; simp [convertFields, ih]

/-- C3: the numeric-safety transform turns every integer scalar whose
absolute value exceeds 2^53 - 1 into its exact decimal string, leaves all
other scalars unchanged, recurses structurally through lists and
dictionaries, and in particular maps the integer 9223372036854775807 to
the string "9223372036854775807". -/
theorem convert_bigint_numeric_safety :
    convert_bigint (.jint 9223372036854775807) = .jstr "9223372036854775807"
    ∧ (∀ n : Int, maxSafeInteger < n.natAbs →
        convert_bigint (.jint n) = .jstr (toString n))
    ∧ (∀ n : Int, n.natAbs ≤ maxSafeInteger →
        convert_bigint (.jint n) = .jint n)
    ∧ (∀ s, convert_bigint (.jstr s) = .jstr s)
    ∧ (∀ b, convert_bigint (.jbool b) = .jbool b)
    ∧ convert_bigint .jnull = .jnull
    ∧ (∀ xs, convert_bigint (.jlist xs) = .jlist (xs.map convert_bigint))
    ∧ (∀ fs, convert_bigint (.jdict fs) =
        .jdict (fs.map (fun kv => (kv.1, convert_bigint kv.2)))) := by
  refine ⟨by rfl, ?_, ?_, fun _ => rfl, fun _ => rfl, rfl, ?_, ?_⟩
  · intro n h
    simp [convert_bigint, h]
  · intro n h
    simp [convert_bigint, Nat.not_lt.mpr h]
  · intro xs
    simp [convert_bigint, convertList_eq_map]
  · intro fs
    simp [convert_bigint, convertFields_eq_map]

/-- Witness for C3 at concrete inputs: 2^53 (just above the bound) is
stringified, and 42 is left untouched. -/
theorem convert_bigint_numeric_safety_witness :
    convert_bigint (.jint 9007199254740992) = .jstr "9007199254740992"
    ∧ convert_bigint (.jint 42) = .jint 42 := by
  refine ⟨?_, ?_⟩
  · have h := convert_bigint_numeric_safety.2.1 9007199254740992 (by decide)
    simpa using h
  · have h := convert_bigint_numeric_safety.2.2.1 42 (by decide)
    simpa using h

mutual

theorem convert_bigint_idem_aux :
    ∀ v, convert_bigint (convert_bigint v) = convert_bigint v
  | .jint n => by
    by_cases h : maxSafeInteger < n.natAbs <;> simp [convert_bigint, h]
  | .jstr _ => rfl
  | .jbool _ => rfl
  | .jnull => rfl
  | .jlist xs => by
    simp only [convert_bigint]
    exact congrArg JVal.jlist (convertList_idem_aux xs)
  | .jdict fs => by
    simp only [convert_bigint]
    exact congrArg JVal.jdict (convertFields_idem_aux fs)

theorem convertList_idem_aux :
    ∀ xs, convertList (convertList xs) = convertList xs
  | [] => rfl
  | x :: xs => by
    simp only [convertList]
    exact congrArg₂ List.cons (convert_bigint_idem_aux x) (convertList_idem_aux xs)

theorem convertFields_idem_aux :
    ∀ fs, convertFields (convertFields fs) = convertFields fs
  | [] => rfl
  | (k, v) :: fs => by
    simp only [convertFields]
    refine congrArg₂ List.cons ?_ (convertFields_idem_aux fs)
    exact congrArg (fun w => (k, w)) (convert_bigint_idem_aux v)

end

/-- C10: the big-integer conversion is idempotent: applying the transform
twice over any value tree yields the same result as applying it once,
since the decimal strings produced by the first pass are string scalars,
which pass through the second pass unchanged. -/
theorem convert_bigint_idempotent (v : JVal) :
    convert_bigint (convert_bigint v) = convert_bigint v :=
  convert_bigint_idem_aux v

/-! ## Registry association-list lemmas -/

theorem connsLookup_removeConn (conns : List (String × Connection))
    (name : String) : connsLookup (removeConn conns name) name = none := by
  induction conns with
  | nil => rfl
  | cons kv rest ih =>
    obtain ⟨k, c⟩ := kv
    by_cases h : k = name
    · simpa [removeConn, h] using ih
    · simpa [removeConn, h, connsLookup] using ih

theorem recordError_absent (st : HubState) (name msg : String)
    (h : connsLookup st.connections name = none) :
    recordError st name msg = st := by
  simp [recordError, h]

theorem countKey_removeConn (conns : List (String × Connection))
    (name : String) : countKey (removeConn conns name) name = 0 := by
  induction conns with
  | nil => rfl
  | cons kv rest ih =>
    obtain ⟨k, c⟩ := kv
    by_cases h : k = name
    · simpa [removeConn, h] using ih
    · simpa [removeConn, countKey, h] using ih

theorem countKey_connsSet (conns : List (String × Connection))
    (name : String) (v : Connection) :
    countKey (connsSet conns name v) name =
      if countKey conns name = 0 then 1 else countKey conns name := by
  induction conns with
  | nil => simp [connsSet, countKey]
  | cons kv rest ih =>
    obtain ⟨k, c⟩ := kv
    by_cases h : k = name
    · simp [connsSet, h, countKey]
    · simp only [connsSet, if_neg h, countKey]
      rw [ih]

/-! ## Behaviour of the connect loop when every attempt fails -/

/-- No stdio attempt succeeds: every outcome is a timeout or an
exception. -/
def StdioAlwaysFails (env : ConnectEnv) : Prop :=
  ∀ a fetch, env.stdio a ≠ StdioOutcome.established fetch

/-- No sse attempt succeeds: no liveness probe returns status 200 —
every outcome is a non-200 status, a timeout, or an exception. -/
def SseAlwaysFails (env : ConnectEnv) : Prop :=
  ∀ a fetch, env.sse a ≠ SseOutcome.status 200 fetch

theorem connectGo_stdio_fail (env : ConnectEnv) (name : String)
    (cfg : ServerConfig) (retries : Nat)
    (hcfg : cfg.transportType = "stdio") (hfail : StdioAlwaysFails env) :
    ∀ fuel attempt st trace, attempt ≤ retries → retries - attempt < fuel →
      (connectGo env name cfg retries fuel st attempt trace).success = false ∧
      (connectGo env name cfg retries fuel st attempt trace).attempts = retries + 1 ∧
      connsLookup
        (connectGo env name cfg retries fuel st attempt trace).state.connections
        name = none := by
  intro fuel
  induction fuel with
  | zero => intro attempt st trace h1 h2; omega
  | succ fuel ih =>
    intro attempt st trace h1 h2
    rcases hstd : env.stdio (attempt + 1) with fetch | _ | msg
    · exact absurd hstd (hfail _ _)
    · by_cases hlast : retries < attempt + 1
      · have hatt : attempt = retries := by omega
        subst hatt
        simp [connectGo, h1, hcfg, hstd, hlast,
          recordError_absent, connsLookup_removeConn]
      · simp only [connectGo, h1, if_true, hcfg, if_pos rfl, hstd, hlast,
          if_false]
        exact ih _ _ _ (by omega) (by omega)
    · by_cases hlast : retries < attempt + 1
      · have hatt : attempt = retries := by omega
        subst hatt
        simp [connectGo, h1, hcfg, hstd, hlast,
          recordError_absent, connsLookup_removeConn]
      · simp only [connectGo, h1, if_true, hcfg, if_pos rfl, hstd, hlast,
          if_false]
        exact ih _ _ _ (by omega) (by omega)

theorem connectGo_sse_fail (env : ConnectEnv) (name : String)
    (cfg : ServerConfig) (retries : Nat)
    (hcfg : cfg.transportType = "sse") (hfail : SseAlwaysFails env) :
    ∀ fuel attempt st trace, attempt ≤ retries → retries - attempt < fuel →
      (connectGo env name cfg retries fuel st attempt trace).success = false ∧
      (connectGo env name cfg retries fuel st attempt trace).attempts = retries + 1 ∧
      connsLookup
        (connectGo env name cfg retries fuel st attempt trace).state.connections
        name = none := by
  have hns : ¬cfg.transportType = "stdio" := by rw [hcfg]; decide
  intro fuel
  induction fuel with
  | zero => intro attempt st trace h1 h2; omega
  | succ fuel ih =>
    intro attempt st trace h1 h2
    rcases hout : env.sse (attempt + 1) with ⟨code, fetch⟩ | _ | msg
    · have hcode : ¬code = 200 := by
        intro hc
        subst hc
        exact hfail _ _ hout
      by_cases hlast : retries < attempt + 1
      · have hatt : attempt = retries := by omega
        subst hatt
        simp [connectGo, h1, hcfg, hout, hcode, hlast,
          connsLookup_removeConn]
      · simp only [connectGo, h1, if_true, hns, if_false, eq_true hcfg,
          if_true, hout, hcode, hlast]
        exact ih _ _ _ (by omega) (by omega)
    · by_cases hlast : retries < attempt + 1
      · have hatt : attempt = retries := by omega
        subst hatt
        simp [connectGo, h1, hcfg, hout, hlast,
          recordError_absent, connsLookup_removeConn]
      · simp only [connectGo, h1, if_true, hns, if_false, eq_true hcfg,
          if_true, hout, hlast]
        exact ih _ _ _ (by omega) (by omega)
    · by_cases hlast : retries < attempt + 1
      · have hatt : attempt = retries := by omega
        subst hatt
        simp [connectGo, h1, hcfg, hout, hlast,
          recordError_absent, connsLookup_removeConn]
      · simp only [connectGo, h1, if_true, hns, if_false, eq_true hcfg,
          if_true, hout, hlast]
        exact ih _ _ _ (by omega) (by omega)

/-- A connect environment in which every attempt, on either transport,
times out. -/
def alwaysTimeoutEnv : ConnectEnv :=
  ⟨fun _ => StdioOutcome.timeout, fun _ => SseOutcome.timeout⟩

/-- C1 counterexample: with `retries = 0` supplied, a connect whose every
attempt fails performs 3 attempts (not 0 + 1 = 1), because the Python
`or`-coercion replaces the falsy 0 with the default retry count 2; and
afterwards the registry holds no session for the name at all, so no
`disconnected` status and no `last_error` are recorded. -/
theorem connect_retry_counterexample :
    (connect_to_server alwaysTimeoutEnv ⟨[], []⟩ "moveflow-aptos" ⟨"stdio"⟩
        none (some 0)).attempts = 3
    ∧ (connect_to_server alwaysTimeoutEnv ⟨[], []⟩ "moveflow-aptos" ⟨"stdio"⟩
        none (some 0)).attempts ≠ 0 + 1
    ∧ connsLookup (connect_to_server alwaysTimeoutEnv ⟨[], []⟩
        "moveflow-aptos" ⟨"stdio"⟩ none (some 0)).state.connections
        "moveflow-aptos" = none := by
  refine ⟨by decide, by decide, by decide⟩

/-- C1 as amended: for a supplied retry bound `r ≥ 1` (a supplied 0 is
coerced to the default of 2 by `retries or self.connection_retries`), a
connect over either transport whose every attempt fails — no stdio
attempt establishes a session, respectively no sse liveness probe
returns 200 — returns false after exactly `r + 1` attempts, and
afterwards the registry holds no session for the name — in particular
no `disconnected` status and no non-empty `last_error` are recorded,
since every attempt first removes any existing binding and a failed
connect never stores one. -/
theorem connect_retry_amended (env : ConnectEnv) (st : HubState)
    (name : String) (cfg : ServerConfig) (timeout : Option Nat) (r : Nat)
    (hr : 1 ≤ r)
    (hfail : (cfg.transportType = "stdio" ∧ StdioAlwaysFails env) ∨
      (cfg.transportType = "sse" ∧ SseAlwaysFails env)) :
    (connect_to_server env st name cfg timeout (some r)).success = false
    ∧ (connect_to_server env st name cfg timeout (some r)).attempts = r + 1
    ∧ connsLookup (connect_to_server env st name cfg timeout
        (some r)).state.connections name = none := by
  obtain ⟨k, rfl⟩ : ∃ k, r = k + 1 := ⟨r - 1, by omega⟩
  have heff : effRetries (some (k + 1)) = k + 1 := rfl
  unfold connect_to_server
  rw [heff]
  rcases hfail with ⟨hcfg, hfail⟩ | ⟨hcfg, hfail⟩
  · exact connectGo_stdio_fail env name cfg (k + 1) hcfg hfail (k + 2) 0 st []
      (by omega) (by omega)
  · exact connectGo_sse_fail env name cfg (k + 1) hcfg hfail (k + 2) 0 st []
      (by omega) (by omega)

/-- A connect environment in which every stdio attempt times out and
every sse liveness probe returns HTTP 500. -/
def alwaysRefuseEnv : ConnectEnv :=
  ⟨fun _ => StdioOutcome.timeout,
   fun _ => SseOutcome.status 500 (Except.error "unreachable")⟩

/-- Witness for the amended C1 at `r = 1` on both transports: two
attempts, failure, and an empty registry. -/
theorem connect_retry_amended_witness :
    ((connect_to_server alwaysTimeoutEnv ⟨[], []⟩ "moveflow-aptos" ⟨"stdio"⟩
        none (some 1)).success = false
      ∧ (connect_to_server alwaysTimeoutEnv ⟨[], []⟩ "moveflow-aptos"
          ⟨"stdio"⟩ none (some 1)).attempts = 1 + 1
      ∧ connsLookup (connect_to_server alwaysTimeoutEnv ⟨[], []⟩
          "moveflow-aptos" ⟨"stdio"⟩ none (some 1)).state.connections
          "moveflow-aptos" = none)
    ∧ ((connect_to_server alwaysRefuseEnv ⟨[], []⟩ "moveflow-aptos" ⟨"sse"⟩
        none (some 1)).success = false
      ∧ (connect_to_server alwaysRefuseEnv ⟨[], []⟩ "moveflow-aptos"
          ⟨"sse"⟩ none (some 1)).attempts = 1 + 1
      ∧ connsLookup (connect_to_server alwaysRefuseEnv ⟨[], []⟩
          "moveflow-aptos" ⟨"sse"⟩ none (some 1)).state.connections
          "moveflow-aptos" = none) :=
  ⟨connect_retry_amended alwaysTimeoutEnv ⟨[], []⟩ "moveflow-aptos" ⟨"stdio"⟩
      none 1 (by omega)
      (Or.inl ⟨rfl, by intro a fetch h; simp [alwaysTimeoutEnv] at h⟩),
   connect_retry_amended alwaysRefuseEnv ⟨[], []⟩ "moveflow-aptos" ⟨"sse"⟩
      none 1 (by omega)
      (Or.inr ⟨rfl, by intro a fetch h; simp [alwaysRefuseEnv] at h⟩)⟩

/-! ## Reconnect behaviour: registry uniqueness and absence of teardown -/

/-- Events that ask a session or handle to shut down. -/
def isTeardownEvent : HubEvent → Bool
  | .closeRequested _ => true
  | .shutdownRequested _ => true
  | _ => false

theorem load_tools_trace_no_teardown (f : Except String (List String))
    (st : HubState) (n : String) :
    ∀ e ∈ (load_tools f st n).2.2, isTeardownEvent e = false := by
  unfold load_tools
  cases connsLookup st.connections n <;> cases f <;> simp [isTeardownEvent]

theorem load_tools_exitStack (f : Except String (List String))
    (st : HubState) (n : String) :
    (load_tools f st n).2.1.exitStack = st.exitStack := by
  unfold load_tools
  cases connsLookup st.connections n <;> cases f <;> simp

theorem load_tools_countKey (f : Except String (List String))
    (st : HubState) (n : String) (h : countKey st.connections n = 1) :
    countKey (load_tools f st n).2.1.connections n = 1 := by
  unfold load_tools
  cases connsLookup st.connections n <;> cases f <;>
    simp [countKey_connsSet, h]

theorem recordError_exitStack (st : HubState) (n m : String) :
    (recordError st n m).exitStack = st.exitStack := by
  unfold recordError
  cases connsLookup st.connections n <;> simp

theorem connectGo_trace_mem (env : ConnectEnv) (name : String)
    (cfg : ServerConfig) (retries : Nat) :
    ∀ fuel attempt st trace e,
      e ∈ (connectGo env name cfg retries fuel st attempt trace).trace →
      e ∈ trace ∨ isTeardownEvent e = false := by
  intro fuel
  induction fuel with
  | zero => intro attempt st trace e he; exact Or.inl he
  | succ fuel ih =>
    intro attempt st trace e
    by_cases h1 : attempt ≤ retries
    swap
    · intro he
      simp only [connectGo, h1, if_false] at he
      exact Or.inl he
    have htr1 : ∀ e, e ∈ (if (connsLookup st.connections name).isSome = true
        then trace ++ [HubEvent.removedExisting name] else trace) →
        e ∈ trace ∨ isTeardownEvent e = false := by
      intro e he
      revert he
      split
      · intro he
        rcases List.mem_append.mp he with h | h
        · exact Or.inl h
        · right
          simp only [List.mem_singleton] at h
          subst h; rfl
      · exact Or.inl
    have hstep : ∀ (st2 : HubState),
        e ∈ (connectGo env name cfg retries fuel st2 (attempt + 1)
          ((if (connsLookup st.connections name).isSome = true
            then trace ++ [HubEvent.removedExisting name] else trace) ++
            [HubEvent.sleptRetry])).trace →
        e ∈ trace ∨ isTeardownEvent e = false := by
      intro st2 he
      rcases ih (attempt + 1) st2 _ e he with h | h
      · rcases List.mem_append.mp h with h | h
        · exact htr1 e h
        · right
          simp only [List.mem_singleton] at h
          subst h; rfl
      · exact Or.inr h
    have hsucc_tail : ∀ (f : Except String (List String)) (st3 : HubState)
        (mid : List HubEvent),
        (∀ x ∈ mid, isTeardownEvent x = false) →
        e ∈ ((if (connsLookup st.connections name).isSome = true
            then trace ++ [HubEvent.removedExisting name] else trace) ++
            mid ++ (load_tools f st3 name).2.2) →
        e ∈ trace ∨ isTeardownEvent e = false := by
      intro f st3 mid hmid he
      rcases List.mem_append.mp he with h | h
      · rcases List.mem_append.mp h with h | h
        · exact htr1 e h
        · exact Or.inr (hmid e h)
      · exact Or.inr (load_tools_trace_no_teardown _ _ _ e h)
    by_cases hcfg : cfg.transportType = "stdio"
    · rcases hstd : env.stdio (attempt + 1) with fetch | _ | msg
      · simp only [connectGo, h1, if_true, hcfg, if_pos rfl, hstd]
        refine hsucc_tail fetch _ _ ?_
        intro x hx
        simp only [List.mem_cons, List.mem_singleton] at hx
        rcases hx with hx | hx
        · subst hx; rfl
        · rcases hx with hx | hx
          · subst hx; rfl
          · exact absurd hx (List.not_mem_nil x)
      · by_cases hlast : retries < attempt + 1
        · simp only [connectGo, h1, if_true, hcfg, if_pos rfl, hstd,
            hlast, if_true]
          exact htr1 e
        · simp only [connectGo, h1, if_true, hcfg, if_pos rfl, hstd,
            hlast, if_false]
          exact hstep _
      · by_cases hlast : retries < attempt + 1
        · simp only [connectGo, h1, if_true, hcfg, if_pos rfl, hstd,
            hlast, if_true]
          exact htr1 e
        · simp only [connectGo, h1, if_true, hcfg, if_pos rfl, hstd,
            hlast, if_false]
          exact hstep _
    · by_cases hsse : cfg.transportType = "sse"
      · rcases hout : env.sse (attempt + 1) with ⟨code, fetch⟩ | _ | msg
        · by_cases hcode : code = 200
          · simp only [connectGo, h1, if_true, hcfg, if_false,
              eq_true hsse, if_true, hout, hcode]
            refine hsucc_tail fetch _ _ ?_
            intro x hx
            simp only [List.mem_singleton] at hx
            subst hx; rfl
          · by_cases hlast : retries < attempt + 1
            · simp only [connectGo, h1, if_true, hcfg, if_false,
                eq_true hsse, if_true, hout, hcode, hlast]
              exact htr1 e
            · simp only [connectGo, h1, if_true, hcfg, if_false,
                eq_true hsse, if_true, hout, hcode, hlast]
              exact hstep _
        · by_cases hlast : retries < attempt + 1
          · simp only [connectGo, h1, if_true, hcfg, if_false,
              eq_true hsse, if_true, hout, hlast]
            exact htr1 e
          · simp only [connectGo, h1, if_true, hcfg, if_false,
              eq_true hsse, if_true, hout, hlast]
            exact hstep _
        · by_cases hlast : retries < attempt + 1
          · simp only [connectGo, h1, if_true, hcfg, if_false,
              eq_true hsse, if_true, hout, hlast]
            exact htr1 e
          · simp only [connectGo, h1, if_true, hcfg, if_false,
              eq_true hsse, if_true, hout, hlast]
            exact hstep _
      · simp only [connectGo, h1, if_true, hcfg, hsse, if_false]
        exact htr1 e

theorem connectGo_stack_mono (env : ConnectEnv) (name : String)
    (cfg : ServerConfig) (retries : Nat) :
    ∀ fuel attempt st trace h, h ∈ st.exitStack →
      h ∈ (connectGo env name cfg retries fuel st attempt trace).state.exitStack := by
  intro fuel
  induction fuel with
  | zero => intro attempt st trace h hmem; exact hmem
  | succ fuel ih =>
    intro attempt st trace h hmem
    by_cases h1 : attempt ≤ retries
    swap
    · simpa [connectGo, h1] using hmem
    by_cases hcfg : cfg.transportType = "stdio"
    · rcases hstd : env.stdio (attempt + 1) with fetch | _ | msg
      · simp only [connectGo, h1, if_true, hcfg, if_pos rfl, hstd,
          load_tools_exitStack]
        exact List.mem_append_left _ hmem
      · by_cases hlast : retries < attempt + 1
        · simp only [connectGo, h1, if_true, hcfg, if_pos rfl, hstd,
            hlast, if_true, recordError_exitStack]
          exact hmem
        · simp only [connectGo, h1, if_true, hcfg, if_pos rfl, hstd,
            hlast, if_false]
          exact ih _ _ _ h hmem
      · by_cases hlast : retries < attempt + 1
        · simp only [connectGo, h1, if_true, hcfg, if_pos rfl, hstd,
            hlast, if_true, recordError_exitStack]
          exact hmem
        · simp only [connectGo, h1, if_true, hcfg, if_pos rfl, hstd,
            hlast, if_false]
          refine ih _ _ _ h ?_
          rw [recordError_exitStack]
          exact hmem
    · by_cases hsse : cfg.transportType = "sse"
      · rcases hout : env.sse (attempt + 1) with ⟨code, fetch⟩ | _ | msg
        · by_cases hcode : code = 200
          · simp only [connectGo, h1, if_true, hcfg, if_false,
              eq_true hsse, if_true, hout, hcode, load_tools_exitStack]
            exact hmem
          · by_cases hlast : retries < attempt + 1
            · simp only [connectGo, h1, if_true, hcfg, if_false,
                eq_true hsse, if_true, hout, hcode, hlast]
              exact hmem
            · simp only [connectGo, h1, if_true, hcfg, if_false,
                eq_true hsse, if_true, hout, hcode, hlast]
              exact ih _ _ _ h hmem
        · by_cases hlast : retries < attempt + 1
          · simp only [connectGo, h1, if_true, hcfg, if_false,
              eq_true hsse, if_true, hout, hlast, recordError_exitStack]
            exact hmem
          · simp only [connectGo, h1, if_true, hcfg, if_false,
              eq_true hsse, if_true, hout, hlast]
            exact ih _ _ _ h hmem
        · by_cases hlast : retries < attempt + 1
          · simp only [connectGo, h1, if_true, hcfg, if_false,
              eq_true hsse, if_true, hout, hlast, recordError_exitStack]
            exact hmem
          · simp only [connectGo, h1, if_true, hcfg, if_false,
              eq_true hsse, if_true, hout, hlast]
            refine ih _ _ _ h ?_
            rw [recordError_exitStack]
            exact hmem
      · simpa [connectGo, h1, hcfg, hsse] using hmem

theorem connectGo_success_count (env : ConnectEnv) (name : String)
    (cfg : ServerConfig) (retries : Nat) :
    ∀ fuel attempt st trace,
      (connectGo env name cfg retries fuel st attempt trace).success = true →
      countKey (connectGo env name cfg retries fuel st attempt
        trace).state.connections name = 1 := by
  intro fuel
  induction fuel with
  | zero => intro attempt st trace hsucc; exact absurd hsucc (by simp [connectGo])
  | succ fuel ih =>
    intro attempt st trace hsucc
    by_cases h1 : attempt ≤ retries
    swap
    · exact absurd hsucc (by simp [connectGo, h1])
    by_cases hcfg : cfg.transportType = "stdio"
    · rcases hstd : env.stdio (attempt + 1) with fetch | _ | msg
      · simp only [connectGo, h1, if_true, hcfg, if_pos rfl, hstd]
        exact load_tools_countKey _ _ _
          (by simp [countKey_connsSet, countKey_removeConn])
      · by_cases hlast : retries < attempt + 1
        · exact absurd hsucc
            (by simp [connectGo, h1, hcfg, hstd, hlast])
        · simp only [connectGo, h1, if_true, hcfg, if_pos rfl, hstd,
            hlast, if_false] at hsucc ⊢
          exact ih _ _ _ hsucc
      · by_cases hlast : retries < attempt + 1
        · exact absurd hsucc
            (by simp [connectGo, h1, hcfg, hstd, hlast])
        · simp only [connectGo, h1, if_true, hcfg, if_pos rfl, hstd,
            hlast, if_false] at hsucc ⊢
          exact ih _ _ _ hsucc
    · by_cases hsse : cfg.transportType = "sse"
      · rcases hout : env.sse (attempt + 1) with ⟨code, fetch⟩ | _ | msg
        · by_cases hcode : code = 200
          · simp only [connectGo, h1, if_true, hcfg, if_false,
              eq_true hsse, if_true, hout, hcode]
            exact load_tools_countKey _ _ _
              (by simp [countKey_connsSet, countKey_removeConn])
          · by_cases hlast : retries < attempt + 1
            · exact absurd hsucc (by
                simp [connectGo, h1, hcfg, eq_true hsse, hout, hcode, hlast])
            · simp only [connectGo, h1, if_true, hcfg, if_false,
                eq_true hsse, if_true, hout, hcode, hlast] at hsucc ⊢
              exact ih _ _ _ hsucc
        · by_cases hlast : retries < attempt + 1
          · exact absurd hsucc (by
              simp [connectGo, h1, hcfg, eq_true hsse, hout, hlast])
          · simp only [connectGo, h1, if_true, hcfg, if_false,
              eq_true hsse, if_true, hout, hlast] at hsucc ⊢
            exact ih _ _ _ hsucc
        · by_cases hlast : retries < attempt + 1
          · exact absurd hsucc (by
              simp [connectGo, h1, hcfg, eq_true hsse, hout, hlast])
          · simp only [connectGo, h1, if_true, hcfg, if_false,
              eq_true hsse, if_true, hout, hlast] at hsucc ⊢
            exact ih _ _ _ hsucc
      · exact absurd hsucc (by simp [connectGo, h1, hcfg, hsse])

/-- A hub state that already holds a stdio session named "moveflow-aptos"
whose transport handle 0 sits on the exit stack. -/
def reconnectStart : HubState :=
  ⟨[("moveflow-aptos", ⟨"stdio", some 0, "connected", none, none⟩)], [0]⟩

/-- A connect environment in which every stdio attempt succeeds at once
(and the subsequent tool-list load succeeds too). -/
def alwaysConnectEnv : ConnectEnv :=
  ⟨fun _ => StdioOutcome.established (Except.ok ["tool1"]),
   fun _ => SseOutcome.timeout⟩

/-- C2 counterexample: reconnecting to an already-registered name
succeeds, yet the run issues no close or shutdown request at all for the
pre-existing session's handle — the old registry entry is merely deleted
(`del self.connections[name]`), so the claimed close-before-store never
happens; the old handle is still sitting on the exit stack afterwards. -/
theorem connect_reconnect_counterexample :
    (connect_to_server alwaysConnectEnv reconnectStart "moveflow-aptos"
        ⟨"stdio"⟩ none none).success = true
    ∧ HubEvent.closeRequested 0 ∉
        (connect_to_server alwaysConnectEnv reconnectStart "moveflow-aptos"
          ⟨"stdio"⟩ none none).trace
    ∧ HubEvent.shutdownRequested "moveflow-aptos" ∉
        (connect_to_server alwaysConnectEnv reconnectStart "moveflow-aptos"
          ⟨"stdio"⟩ none none).trace
    ∧ 0 ∈ (connect_to_server alwaysConnectEnv reconnectStart "moveflow-aptos"
          ⟨"stdio"⟩ none none).state.exitStack := by
  refine ⟨by decide, by decide, by decide, by decide⟩

/-- C2 as amended: when connect succeeds for a name that already had a
session, exactly one registry binding for that name remains (the old
binding is deleted before the new session is stored), but the
pre-existing session's handle receives no close or shutdown request
during the connect — every handle that was on the exit stack beforehand
is still on it afterwards, to be closed only by `cleanup`. -/
theorem connect_reconnect_amended (env : ConnectEnv) (st : HubState)
    (name : String) (cfg : ServerConfig) (timeout retries : Option Nat)
    (oldc : Connection)
    (hold : connsLookup st.connections name = some oldc)
    (hsucc : (connect_to_server env st name cfg timeout retries).success = true) :
    countKey (connect_to_server env st name cfg timeout
        retries).state.connections name = 1
    ∧ (∀ h, HubEvent.closeRequested h ∉
        (connect_to_server env st name cfg timeout retries).trace)
    ∧ (∀ n, HubEvent.shutdownRequested n ∉
        (connect_to_server env st name cfg timeout retries).trace)
    ∧ ∀ h, h ∈ st.exitStack →
        h ∈ (connect_to_server env st name cfg timeout retries).state.exitStack := by
  refine ⟨?_, ?_, ?_, ?_⟩
  · exact connectGo_success_count env name cfg (effRetries retries) _ _ _ _ hsucc
  · intro h hmem
    rcases connectGo_trace_mem env name cfg (effRetries retries) _ _ _ _ _ hmem
      with hc | hc
    · exact absurd hc (List.not_mem_nil _)
    · exact absurd hc (by simp [isTeardownEvent])
  · intro n hmem
    rcases connectGo_trace_mem env name cfg (effRetries retries) _ _ _ _ _ hmem
      with hc | hc
    · exact absurd hc (List.not_mem_nil _)
    · exact absurd hc (by simp [isTeardownEvent])
  · intro h hmem
    exact connectGo_stack_mono env name cfg (effRetries retries) _ _ _ _ h hmem

/-- Witness for the amended C2 at a concrete reconnect. -/
theorem connect_reconnect_amended_witness :
    countKey (connect_to_server alwaysConnectEnv reconnectStart
        "moveflow-aptos" ⟨"stdio"⟩ none none).state.connections
        "moveflow-aptos" = 1
    ∧ HubEvent.closeRequested 0 ∉
        (connect_to_server alwaysConnectEnv reconnectStart "moveflow-aptos"
          ⟨"stdio"⟩ none none).trace :=
  have h := connect_reconnect_amended alwaysConnectEnv reconnectStart
    "moveflow-aptos" ⟨"stdio"⟩ none none
    ⟨"stdio", some 0, "connected", none, none⟩ rfl (by decide)
  ⟨h.1, h.2.1 0⟩

/-! ## Cleanup: never raises, empties the registry, idempotent -/

theorem cleanupShutdownLoop_isOk (o : CleanupOracle) :
    ∀ conns, ∃ evs, cleanupShutdownLoop o conns = Except.ok evs := by
  intro conns
  induction conns with
  | nil => exact ⟨[], rfl⟩
  | cons kv rest ih =>
    obtain ⟨k, c⟩ := kv
    obtain ⟨evs, hevs⟩ := ih
    by_cases h : c.transport = "stdio"
    · refine ⟨HubEvent.shutdownRequested k :: evs, ?_⟩
      have hcatch : pyCatch (sessionShutdown o k) (fun _ => Except.ok ()) =
          Except.ok () := by
        by_cases hr : o.shutdownRaises k = true <;>
          simp [pyCatch, sessionShutdown, hr]
      simp only [cleanupShutdownLoop, eq_true h, if_true, hevs, hcatch]
      rfl
    · exact ⟨evs, by simpa [cleanupShutdownLoop, h] using hevs⟩

theorem cleanup_ok (o : CleanupOracle) (st : HubState) :
    ∃ st1 evs, cleanup o st = Except.ok (st1, evs) ∧ st1.connections = [] := by
  obtain ⟨evs, hevs⟩ := cleanupShutdownLoop_isOk o st.connections
  by_cases ha : o.acloseRaises = true
  · have hsa : stackAclose o = Except.error "aclose failed" := by
      simp [stackAclose, ha]
    refine ⟨⟨[], st.exitStack⟩, evs ++ [], ?_, rfl⟩
    simp only [cleanup, hevs, hsa]
    rfl
  · have hsa : stackAclose o = Except.ok () := by
      simp [stackAclose, ha]
    refine ⟨⟨[], []⟩, evs ++ st.exitStack.map HubEvent.closeRequested, ?_, rfl⟩
    simp only [cleanup, hevs, hsa]
    rfl

/-- C4: `cleanup` never raises — it returns normally for every registry
state and every combination of failing shutdown/aclose calls — and it
always leaves the connection registry empty; calling it a second time
from the post-state of the first call again returns normally with an
empty registry (idempotence). -/
theorem cleanup_never_raises_idempotent (o : CleanupOracle) (st : HubState) :
    ∃ st1 evs1 st2 evs2,
      cleanup o st = Except.ok (st1, evs1) ∧ st1.connections = [] ∧
      cleanup o st1 = Except.ok (st2, evs2) ∧ st2.connections = [] := by
  obtain ⟨st1, evs1, h1, h2⟩ := cleanup_ok o st
  obtain ⟨st2, evs2, h3, h4⟩ := cleanup_ok o st1
  exact ⟨st1, evs1, st2, evs2, h1, h2, h3, h4⟩

/-! ## call_tool: fail-fast lookup and error propagation -/

/-- C5: calling a tool on a server name absent from the registry raises
the session-not-found error without performing any transport operation;
for a registered name the transport outcome — success or raised
transport error — is propagated to the caller unchanged (the handler
prints and re-raises). -/
theorem call_tool_session_lookup :
    (∀ tr st server tool args, connsLookup st.connections server = none →
        call_tool tr st server tool args =
          (Except.error ("未找到服务器连接: " ++ server), []))
    ∧ ∀ tr st server tool args c,
        connsLookup st.connections server = some c →
        call_tool tr st server tool args =
          (tr, [HubEvent.transportToolCall server tool]) := by
  constructor
  · intro tr st server tool args h
    simp [call_tool, h]
  · intro tr st server tool args c h
    simp [call_tool, h]

/-- A hub holding one connected stdio session. -/
def sampleHub : HubState :=
  ⟨[("moveflow-aptos", ⟨"stdio", some 0, "connected", none, none⟩)], [0]⟩

/-- Witness for C5: a missing name fails fast with an empty transport
trace; a transport error on a registered name is propagated verbatim. -/
theorem call_tool_session_lookup_witness :
    call_tool (Except.ok "ok") ⟨[], []⟩ "missing-server" "x" (JVal.jdict []) =
      (Except.error "未找到服务器连接: missing-server", [])
    ∧ call_tool (Except.error "transport boom") sampleHub "moveflow-aptos"
        "create-stream" JVal.jnull =
      (Except.error "transport boom",
       [HubEvent.transportToolCall "moveflow-aptos" "create-stream"]) :=
  ⟨call_tool_session_lookup.1 (Except.ok "ok") ⟨[], []⟩ "missing-server" "x"
      (JVal.jdict []) rfl,
   call_tool_session_lookup.2 (Except.error "transport boom") sampleHub
      "moveflow-aptos" "create-stream" JVal.jnull
      ⟨"stdio", some 0, "connected", none, none⟩ (by decide)⟩

/-! ## load_tools: no cache consultation, fetch-and-cache, empty on failure -/

/-- A hub whose single session already carries a cached tool list. -/
def cachedHub : HubState :=
  ⟨[("moveflow-aptos", ⟨"stdio", some 0, "connected", none,
      some ["cached-tool"]⟩)], [0]⟩

/-- C6 counterexample: with a cached tool list present, `load_tools`
still performs a transport fetch and returns the freshly fetched list,
not the cached one — the source has no cache check at all. -/
theorem load_tools_counterexample :
    (load_tools (Except.ok ["fresh-tool"]) cachedHub "moveflow-aptos").1 =
      ["fresh-tool"]
    ∧ (load_tools (Except.ok ["fresh-tool"]) cachedHub "moveflow-aptos").1 ≠
        ["cached-tool"]
    ∧ (load_tools (Except.ok ["fresh-tool"]) cachedHub "moveflow-aptos").2.2 =
        [HubEvent.fetchedTools "moveflow-aptos"] := by
  refine ⟨by decide, by decide, by decide⟩

/-- C6 as amended: `load_tools` never consults the cached list — it
fetches on every call.  A missing session yields `[]` with no transport
activity; a successful fetch returns the fetched list and overwrites the
cache on the session; a failed fetch yields `[]` and leaves the state
unchanged. -/
theorem load_tools_amended :
    (∀ f st server, connsLookup st.connections server = none →
        load_tools f st server = ([], st, []))
    ∧ (∀ st server c ts, connsLookup st.connections server = some c →
        load_tools (Except.ok ts) st server =
          (ts, { st with connections := (connsSet st.connections server
              ({ c with tools := some ts })) },
           [HubEvent.fetchedTools server]))
    ∧ ∀ st server c e, connsLookup st.connections server = some c →
        load_tools (Except.error e) st server =
          ([], st, [HubEvent.fetchedTools server]) := by
  refine ⟨?_, ?_, ?_⟩
  · intro f st server h
    simp [load_tools, h]
  · intro st server c ts h
    simp [load_tools, h]
  · intro st server c e h
    simp [load_tools, h]

/-- Witness for the amended C6 at concrete inputs: missing session,
successful fetch over a stale cache, and failed fetch. -/
theorem load_tools_amended_witness :
    load_tools (Except.ok ["t"]) ⟨[], []⟩ "missing-server" = ([], ⟨[], []⟩, [])
    ∧ load_tools (Except.ok ["fresh-tool"]) cachedHub "moveflow-aptos" =
        (["fresh-tool"],
         ⟨[("moveflow-aptos", ⟨"stdio", some 0, "connected", none,
             some ["fresh-tool"]⟩)], [0]⟩,
         [HubEvent.fetchedTools "moveflow-aptos"])
    ∧ load_tools (Except.error "list_tools failed") cachedHub
        "moveflow-aptos" =
        ([], cachedHub, [HubEvent.fetchedTools "moveflow-aptos"]) := by
  refine ⟨load_tools_amended.1 (Except.ok ["t"]) ⟨[], []⟩ "missing-server" rfl,
    ?_, load_tools_amended.2.2 cachedHub "moveflow-aptos"
      ⟨"stdio", some 0, "connected", none, some ["cached-tool"]⟩
      "list_tools failed" (by decide)⟩
  have h := load_tools_amended.2.1 cachedHub "moveflow-aptos"
    ⟨"stdio", some 0, "connected", none, some ["cached-tool"]⟩
    ["fresh-tool"] (by decide)
  rw [h]
  decide

/-! ## Dispatcher: per-invocation error isolation and sequential order -/

theorem openaiProcessCalls_eq (co : Nat → Except String String) :
    ∀ tcs i, openaiProcessCalls co i tcs =
      Except.ok (openaiAnnotList co i tcs) := by
  intro tcs
  induction tcs with
  | nil => intro i; rfl
  | cons tc rest ih =>
    intro i
    have hrest := ih (i + 1)
    cases hc : co i <;>
      · simp only [openaiProcessCalls, hc, hrest, openaiAnnotList, openaiAnnot]
        rfl

theorem openaiAnnotList_get (co : Nat → Except String String) :
    ∀ tcs j i, (openaiAnnotList co j tcs).get? i =
      (tcs.get? i).map (fun tc => openaiAnnot co (j + i) tc) := by
  intro tcs
  induction tcs with
  | nil => intro j i; simp [openaiAnnotList]
  | cons tc rest ih =>
    intro j i
    cases i with
    | zero => simp [openaiAnnotList]
    | succ i =>
      have hadd : j + 1 + i = j + (i + 1) := by omega
      simp only [openaiAnnotList, List.get?_cons_succ, ih (j + 1) i, hadd]

theorem anthropicProcessBlocks_eq (co : Nat → Except String String) :
    ∀ blocks i, anthropicProcessBlocks co i blocks =
      Except.ok (anthropicParts co i blocks) := by
  intro blocks
  induction blocks with
  | nil => intro i; rfl
  | cons b rest ih =>
    intro i
    cases b with
    | text s =>
      simp only [anthropicProcessBlocks, anthropicParts, ih]
      rfl
    | toolUse n =>
      cases hc : co i <;>
        · simp only [anthropicProcessBlocks, anthropicParts, anthropicAnnot,
            hc, ih]
          rfl
    | other => simp only [anthropicProcessBlocks, anthropicParts, ih]

theorem anthropicParts_mem (co : Nat → Except String String) :
    ∀ blocks j i n, blocks.get? i = some (ContentBlock.toolUse n) →
      anthropicAnnot co (j + i) n ∈ anthropicParts co j blocks := by
  intro blocks
  induction blocks with
  | nil => intro j i n h; simp at h
  | cons b rest ih =>
    intro j i n h
    cases i with
    | zero =>
      simp only [List.get?_cons_zero, Option.some_inj] at h
      subst h
      simp [anthropicParts]
    | succ i =>
      simp only [List.get?_cons_succ] at h
      have hmem := ih (j + 1) i n h
      have hadd : j + 1 + i = j + (i + 1) := by omega
      rw [hadd] at hmem
      cases b with
      | text s => simp [anthropicParts, hmem]
      | toolUse m => simp [anthropicParts, hmem]
      | other => simpa [anthropicParts] using hmem

theorem openai_process_response_closed (co : Nat → Except String String)
    (msg : ChatMessage) :
    openai_process_response co true (some msg) =
      Except.ok (if (contentParts msg.content ++
          openaiAnnotList co 0 msg.tool_calls).isEmpty
        then "处理完成，但没有返回结果"
        else pyJoin "\n" (contentParts msg.content ++
          openaiAnnotList co 0 msg.tool_calls)) := by
  have h := openaiProcessCalls_eq co msg.tool_calls 0
  simp only [openai_process_response, h]
  rfl

theorem anthropic_process_response_closed (co : Nat → Except String String)
    (blocks : List ContentBlock) :
    anthropic_process_response co true blocks =
      Except.ok (if (anthropicParts co 0 blocks).isEmpty
        then "处理完成，但没有返回结果"
        else pyJoin "\n" (anthropicParts co 0 blocks)) := by
  have h := anthropicProcessBlocks_eq co blocks 0
  simp only [anthropic_process_response, h]
  rfl

/-- C7: in both dispatcher variants, an invocation whose tool call raises
does not abort the query: the whole response is still produced — the
joined text carries one part per content block and one annotation per
invocation, in order — and the failing invocation's annotation is the
inline error marker, while processing continues over the remaining
invocations. -/
theorem process_response_error_isolation :
    (∀ (co : Nat → Except String String) (msg : ChatMessage) (i : Nat)
        (tc : ToolCall) (e : String),
        msg.tool_calls.get? i = some tc → co i = Except.error e →
        openai_process_response co true (some msg) =
          Except.ok (pyJoin "\n" (contentParts msg.content ++
            openaiAnnotList co 0 msg.tool_calls))
        ∧ (openaiAnnotList co 0 msg.tool_calls).get? i =
            some ("\n[调用工具 " ++ tc.name ++ " 失败: " ++ e ++ "]"))
    ∧ ∀ (co : Nat → Except String String) (blocks : List ContentBlock)
        (i : Nat) (n e : String),
        blocks.get? i = some (ContentBlock.toolUse n) →
        co i = Except.error e →
        anthropic_process_response co true blocks =
          Except.ok (pyJoin "\n" (anthropicParts co 0 blocks))
        ∧ ("\n[调用工具 " ++ n ++ " 失败: " ++ e ++ "]") ∈
            anthropicParts co 0 blocks := by
  constructor
  · intro co msg i tc e hget hco
    have hALget := openaiAnnotList_get co msg.tool_calls 0 i
    rw [hget] at hALget
    have hget2 : (openaiAnnotList co 0 msg.tool_calls).get? i =
        some ("\n[调用工具 " ++ tc.name ++ " 失败: " ++ e ++ "]") := by
      rw [hALget]
      simp [openaiAnnot, Nat.zero_add, hco]
    refine ⟨?_, hget2⟩
    rw [openai_process_response_closed]
    cases hALc : openaiAnnotList co 0 msg.tool_calls with
    | nil => rw [hALc] at hget2; simp at hget2
    | cons x xs =>
      cases hcp : contentParts msg.content with
      | nil => simp [hALc, hcp]
      | cons c cs => simp [hALc, hcp]
  · intro co blocks i n e hget hco
    have hmem := anthropicParts_mem co blocks 0 i n hget
    rw [Nat.zero_add] at hmem
    have hann : anthropicAnnot co i n =
        "\n[调用工具 " ++ n ++ " 失败: " ++ e ++ "]" := by
      simp [anthropicAnnot, hco]
    rw [hann] at hmem
    refine ⟨?_, hmem⟩
    rw [anthropic_process_response_closed]
    have hne := List.ne_nil_of_mem hmem
    cases hp : anthropicParts co 0 blocks with
    | nil => exact absurd hp hne
    | cons x xs => simp [hp]

/-- The call oracle used by the dispatcher witness: the first invocation
raises, the second succeeds. -/
def witnessCallOutcome : Nat → Except String String :=
  fun i => if i = 0 then Except.error "boom" else Except.ok "fine"

/-- Witness for C7 at a concrete two-invocation response in each
dispatcher variant: the first call raises, the response is still
complete. -/
theorem process_response_error_isolation_witness :
    openai_process_response witnessCallOutcome true
        (some ⟨none, [⟨"transfer"⟩, ⟨"get-stream"⟩]⟩) =
      Except.ok (pyJoin "\n" (contentParts none ++
        openaiAnnotList witnessCallOutcome 0 [⟨"transfer"⟩, ⟨"get-stream"⟩]))
    ∧ ("\n[调用工具 transfer 失败: boom]") ∈
        anthropicParts witnessCallOutcome 0
          [ContentBlock.toolUse "transfer", ContentBlock.text "hi"] :=
  ⟨(process_response_error_isolation.1 witnessCallOutcome
      ⟨none, [⟨"transfer"⟩, ⟨"get-stream"⟩]⟩ 0 ⟨"transfer"⟩ "boom" rfl rfl).1,
   (process_response_error_isolation.2 witnessCallOutcome
      [ContentBlock.toolUse "transfer", ContentBlock.text "hi"] 0 "transfer"
      "boom" rfl rfl).2⟩

/-- C8: with two tool invocations emitted in the order A then B, the
dispatcher processes them sequentially and the response text contains
A's annotation strictly before B's — the output decomposes as a prefix
part followed by A's annotation, a separator, and B's annotation; and a
response that produces no content at all yields the fixed placeholder
string. -/
theorem sequential_dispatch_order (co : Nat → Except String String)
    (content : Option String) (A B : ToolCall) :
    (∃ p, openai_process_response co true (some ⟨content, [A, B]⟩) =
      Except.ok (p ++ openaiAnnot co 0 A ++ "\n" ++ openaiAnnot co 1 B))
    ∧ openai_process_response co true (some ⟨none, []⟩) =
      Except.ok "处理完成，但没有返回结果" := by
  constructor
  · rcases content with _ | c
    · refine ⟨"", ?_⟩
      rw [openai_process_response_closed]
      rfl
    · by_cases hc : c = ""
      · subst hc
        refine ⟨"", ?_⟩
        rw [openai_process_response_closed]
        rfl
      · refine ⟨c ++ "\n", ?_⟩
        rw [openai_process_response_closed]
        simp only [contentParts, hc, if_false]
        simp [pyJoin, openaiAnnotList, String.append_assoc]
  · rfl

/-! ## Argument preprocessing: the caller's mapping is never mutated -/

theorem store_getD_append (store ext : Store) (r : Nat)
    (h : r < store.length) :
    (store ++ ext).getD r [] = store.getD r [] := by
  induction store generalizing r with
  | nil => simp at h
  | cons x xs ih =>
    cases r with
    | zero => rfl
    | succ r =>
      have := ih r (by simpa using h)
      simpa [List.getD] using this

theorem observeVal_extend (store ext : Store) (v : PVal)
    (h : validRefB store v = true) :
    observeVal (store ++ ext) v = observeVal store v := by
  cases v with
  | plist r =>
    simp only [validRefB, decide_eq_true_eq] at h
    simp only [observeVal]
    exact congrArg Obs.olist (store_getD_append store ext r h)
  | pint n => rfl
  | pstr s => rfl
  | pbool b => rfl
  | pnone => rfl

theorem observeDict_extend (store ext : Store) (d : PyDict)
    (h : validRefsB store d = true) :
    observeDict (store ++ ext) d = observeDict store d := by
  induction d with
  | nil => rfl
  | cons kv rest ih =>
    simp only [validRefsB, List.all_cons, Bool.and_eq_true] at h
    simp only [observeDict, List.map_cons]
    have hrest := ih (by simpa [validRefsB] using h.2)
    simp only [observeDict] at hrest
    rw [hrest, observeVal_extend store ext kv.2 h.1]

theorem strAmountList_extends (d : PyDict) (store : Store) (f : String)
    (p : PyDict) (s2 : Store)
    (h : strAmountList d store f = Except.ok (p, s2)) :
    ∃ ext, s2 = store ++ ext := by
  unfold strAmountList at h
  split at h
  · split at h
    · split at h
      · exact absurd h (by simp)
      · cases h
        exact ⟨_, rfl⟩
    · cases h
      exact ⟨[], (List.append_nil store).symm⟩
  · cases h
    exact ⟨[], (List.append_nil store).symm⟩

/-- C9: `_preprocess_tool_args` returns its coerced result without
mutating the caller's argument mapping: as long as the mapping's list
references point into the heap, the mapping observed after a successful
call — each key with its value, nested lists dereferenced — is exactly
what it was before the call.  The shallow copy shares list references,
but every coercion rebinds a key on the copy or allocates a fresh list;
no shared list object is written. -/
theorem preprocess_no_mutation (tool : String) (args : PyDict)
    (store : Store) (p : PyDict) (store2 : Store)
    (hvalid : validRefsB store args = true)
    (hok : preprocess_tool_args tool args store = Except.ok (p, store2)) :
    observeDict store2 args = observeDict store args := by
  unfold preprocess_tool_args at hok
  by_cases h1 : tool = "create-stream"
  · rw [if_pos h1] at hok
    cases hok
    rfl
  · rw [if_neg h1] at hok
    by_cases h2 : tool = "batch-create-streams"
    · rw [if_pos h2] at hok
      split at hok
      next heq1 => exact absurd hok (by simp)
      next p1 s1 heq1 =>
        split at hok
        next heq2 => exact absurd hok (by simp)
        next p2 s2 heq2 =>
          cases hok
          obtain ⟨e1, he1⟩ := strAmountList_extends _ _ _ _ _ heq1
          obtain ⟨e2, he2⟩ := strAmountList_extends _ _ _ _ _ heq2
          rw [he2, he1, List.append_assoc]
          exact observeDict_extend store (e1 ++ e2) args hvalid
    · rw [if_neg h2] at hok
      cases hok
      rfl

/-- Witness for C9: a batch-create-streams call whose depositAmounts list
is shared with the caller; the coerced copy points at a freshly
allocated list while the caller's mapping still observes the original. -/
theorem preprocess_no_mutation_witness :
    validRefsB [[PScalar.sint 5]]
        [("depositAmounts", PVal.plist 0)] = true
    ∧ observeDict [[PScalar.sint 5], [PScalar.sstr "5"]]
        [("depositAmounts", PVal.plist 0)] =
      observeDict [[PScalar.sint 5]] [("depositAmounts", PVal.plist 0)] :=
  ⟨by decide,
   preprocess_no_mutation "batch-create-streams"
     [("depositAmounts", PVal.plist 0)] [[PScalar.sint 5]]
     [("depositAmounts", PVal.plist 1)] [[PScalar.sint 5], [PScalar.sstr "5"]]
     (by decide) rfl⟩
